import Mathlib

/-!
Verification of the heatwave audio/acoustics core.

This file gives a shallow embedding, over the real numbers, of the parts of
the repository that the checked properties talk about:

* the T-network pressure model and its precomputed matrix
  (src/audio/pressure_matrix.py, src/audio/pressure_algorithm.py);
* the modal-decomposition solver and its cache key
  (src/audio/modal_decomposition.py, src/modal_decomposition.py);
* the resonant-frequency selection (src/audio/pressure_algorithm.py);
* the tone synthesizer state machine and soft clipping
  (src/audio/synth.py, src/audio/audio_core.py);
* the animated pressure-target center position (src/audio/pressure_targets.py).

Machine floats are modelled by exact reals; numpy linear-algebra routines
(Cholesky and general solves), which live outside the repository, are
abstracted by an explicit `Option`-valued solver outcome.
-/

namespace Heatwave

open Classical

/-- Python's float modulo: `a % b = a - b * floor (a / b)`.  For `b > 0` the
result lies in `[0, b)`.  Used by the phase wrap in `ToneSynth.callback`
(src/audio/synth.py line 126) and by the animation clock
(src/audio/pressure_targets.py line 83). -/
noncomputable def pymod (a b : ℝ) : ℝ := a - b * ⌊a / b⌋

/-- Tube physics parameters, as read from the shared `tube_params` state in
`PressureAlgorithmInput.update_from_tube_params` (src/audio/pressure_algorithm.py
lines 44-59).  `density` and `hole_impedance_factor` are the constants 1.9 and
0.6 fixed there; they are carried as fields so that concrete instances spell
them out. -/
structure TubeParams where
  speed_of_sound : ℝ
  tube_length : ℝ
  tube_diameter : ℝ
  damping_coefficient : ℝ
  hole_size : ℝ
  propane_pressure : ℝ
  reflection_count : ℕ
  q_factor : ℝ
  density : ℝ
  hole_impedance_factor : ℝ

/-- Wave number `k = ω / c = 2πf / c` (src/audio/pressure_algorithm.py lines 321-324). -/
noncomputable def waveNumber (p : TubeParams) (frequency : ℝ) : ℝ :=
  2 * Real.pi * frequency / p.speed_of_sound

/-- Q-weighted damping `effective_damping = damping_coefficient / q_factor`
(src/audio/pressure_algorithm.py line 337). -/
noncomputable def effectiveDamping (p : TubeParams) : ℝ :=
  p.damping_coefficient / p.q_factor

/-- Path length travelled by the `r`-th reflection before reaching position `x`:
the explicitly coded first reflection uses `2L - x`
(src/audio/pressure_algorithm.py line 350), and the loop over `r ≥ 2` uses
`rL - x` for odd `r` and `rL + x` for even `r` (lines 356-367). -/
noncomputable def reflectionPath (L x : ℝ) (r : ℕ) : ℝ :=
  if r = 1 then 2 * L - x
  else if r % 2 = 1 then (r : ℝ) * L - x
  else (r : ℝ) * L + x

/-- Signed sum of the incident wave and all reflected waves at position `x`,
each damped by its path length.  Both end reflection coefficients are `1.0`
(src/audio/pressure_algorithm.py lines 332-374). -/
noncomputable def tNetworkBase (p : TubeParams) (frequency x : ℝ) : ℝ :=
  Real.cos (waveNumber p frequency * x) * Real.exp (-(effectiveDamping p) * x) +
    ((List.range' 1 p.reflection_count).map (fun r =>
      Real.cos (waveNumber p frequency * reflectionPath p.tube_length x r) *
        Real.exp (-(effectiveDamping p) * reflectionPath p.tube_length x r))).sum

/-- Standing-wave enhancement factor, applied only when more than two
reflections are modelled (src/audio/pressure_algorithm.py lines 377-380). -/
noncomputable def standingWaveFactor (p : TubeParams) (frequency : ℝ) : ℝ :=
  if 2 < p.reflection_count then
    1 + 0.3 * |Real.sin (waveNumber p frequency * p.tube_length)| *
      ((p.reflection_count : ℝ) / 5)
  else 1

/-- Hole-impedance perturbation factor, applied only when `hole_size > 0`
(src/audio/pressure_algorithm.py lines 383-387), with `z0 = density * c`. -/
noncomputable def holeFactor (p : TubeParams) (frequency x : ℝ) : ℝ :=
  if 0 < p.hole_size then
    1 + ((p.density * p.speed_of_sound /
          (p.density * p.speed_of_sound * waveNumber p frequency *
            (p.hole_size / 2) * (1 + p.hole_impedance_factor))) * 0.3) *
        Real.sin (waveNumber p frequency * x)
  else 1

/-- Signed per-position T-network response: the value accumulated in
`pressures[i]` just before the final `np.abs` on line 390 of
src/audio/pressure_algorithm.py (identically line 161 of
src/audio/pressure_matrix.py).  This is the "signed per-frequency response"
the specification speaks about. -/
noncomputable def tNetworkAccum (p : TubeParams) (frequency x : ℝ) : ℝ :=
  tNetworkBase p frequency x * standingWaveFactor p frequency * holeFactor p frequency x

/-- `calculate_t_network_pressures` (src/audio/pressure_algorithm.py lines
318-392 and src/audio/pressure_matrix.py lines 79-163): the signed
accumulation followed by `pressures[i] = np.abs(pressures[i])` at each
position. -/
noncomputable def calculate_t_network_pressures (p : TubeParams) (frequency : ℝ)
    (positions : List ℝ) : List ℝ :=
  positions.map (fun x => |tNetworkAccum p frequency x|)

/-- Frequency-grid point `i` of the pressure matrix: `linspace(20, 500, 241)`
with the regenerated resolution of 2 Hz (src/audio/pressure_matrix.py lines
25-29), so grid point `i` sits at `20 + 2i`. -/
noncomputable def gridFreq (i : ℕ) : ℝ := 20 + 2 * (i : ℝ)

/-- Membership of `f` in the matrix frequency grid, the test
`frequency in self.freq_range` (src/audio/pressure_matrix.py line 55). -/
def OnGrid (f : ℝ) : Prop := ∃ i : ℕ, i ≤ 240 ∧ f = gridFreq i

/-- Lower bracketing index `int((frequency - min_freq) / freq_resolution)`
(src/audio/pressure_matrix.py line 66); for `f > 20` the Python `int`
truncation agrees with the floor.  For a grid frequency `20 + 2i` it equals
`i`, which is also the index `np.where(freq_range == frequency)` returns in
the exact-hit branch. -/
noncomputable def lowIdx (f : ℝ) : ℕ := (⌊(f - 20) / 2⌋).toNat

/-- `get_pressure_from_matrix` (src/audio/pressure_matrix.py lines 52-77 and
src/audio/pressure_algorithm.py lines 99-124) for one position index: `row i`
is the stored matrix entry at frequency-grid row `i`.  Branches, in source
order: exact grid hit, clamp below `min_freq = 20`, clamp above
`max_freq = 500`, then linear interpolation between the bracketing rows with
`idx_high = min (idx_low + 1) 240` and
`t = (f - freq_low) / (freq_high - freq_low)` guarded by `freq_high > freq_low`. -/
noncomputable def get_pressure_from_matrix (row : ℕ → ℝ) (f : ℝ) : ℝ :=
  if OnGrid f then row (lowIdx f)
  else if f ≤ 20 then row 0
  else if 500 ≤ f then row 240
  else
    row (lowIdx f) +
      (if gridFreq (lowIdx f) < gridFreq (min (lowIdx f + 1) 240) then
        (f - gridFreq (lowIdx f)) /
          (gridFreq (min (lowIdx f + 1) 240) - gridFreq (lowIdx f))
      else 0) *
      (row (min (lowIdx f + 1) 240) - row (lowIdx f))

/-- `generate_pressure_matrix` (src/audio/pressure_matrix.py lines 19-50):
matrix entry at frequency row `i` and position column `j` is the output of
`calculate_t_network_pressures` at grid frequency `i`. -/
noncomputable def generatePressureMatrix (p : TubeParams) (positions : List ℝ)
    (i j : ℕ) : ℝ :=
  (calculate_t_network_pressures p (gridFreq i) positions).getD j 0

/-- Componentwise sum of two pressure vectors. -/
noncomputable def vecAdd (u v : List ℝ) : List ℝ := List.zipWith (· + ·) u v

/-- Fallback branch of `combine_frequency_pressures` taken when the matrix is
absent (src/audio/pressure_matrix.py lines 175-180): sum of
`amplitude * calculate_t_network_pressures(freq, positions)` over the
frequency/amplitude pairs, before the final normalization. -/
noncomputable def combineDirect (p : TubeParams) (positions : List ℝ)
    (freqs amps : List ℝ) : List ℝ :=
  (freqs.zip amps).foldl
    (fun acc fa => vecAdd acc ((calculate_t_network_pressures p fa.1 positions).map
      (fun v => fa.2 * v)))
    (positions.map (fun _ => 0))

/-- Matrix branch of `combine_frequency_pressures`
(src/audio/pressure_matrix.py lines 181-199), pointwise at position index `j`:
each frequency's interpolated matrix row is scaled by its amplitude and the
rows are summed.  The final peak normalization (lines 201-204) is not needed
by any checked property. -/
noncomputable def combine_frequency_pressures (matrix : ℕ → ℕ → ℝ)
    (freqs amps : List ℝ) (j : ℕ) : ℝ :=
  ((freqs.zip amps).map
    (fun fa => fa.2 * get_pressure_from_matrix (fun i => matrix i j) fa.1)).sum

/-- `np.clip(a, 0, 1.0)` on one amplitude (src/audio/modal_decomposition.py
line 120). -/
noncomputable def clip01 (a : ℝ) : ℝ := min 1 (max 0 a)

/-- Mode basis frequencies `f_n = (2n + 1) * c / (4L)` for `n = 0 .. num_modes - 1`
(src/audio/modal_decomposition.py line 51, src/modal_decomposition.py line 28). -/
noncomputable def modalFrequencies (p : TubeParams) (numModes : ℕ) : List ℝ :=
  (List.range numModes).map
    (fun n : ℕ => (2 * (n : ℝ) + 1) * p.speed_of_sound / (4 * p.tube_length))

/-- `ModalDecomposition.decompose_target` (src/audio/modal_decomposition.py
lines 27-127, src/modal_decomposition.py lines 10-56).  The scipy linear
solves are external library code; `solverResult` abstracts the outcome of the
whole Cholesky / general-solve chain: `some amps` when one of the attempts
produced amplitudes, `none` when every attempt raised, which is exactly the
case in which the source returns the sentinel `(None, None)`.  A `none` or
empty target short-circuits to the sentinel before any solving. -/
noncomputable def decompose_target (p : TubeParams) (solverResult : Option (List ℝ)) :
    Option (List ℝ) → ℕ → Option (List ℝ × List ℝ)
  | none, _ => none
  | some t, numModes =>
    if t.length = 0 then none
    else
      match solverResult with
      | none => none
      | some amps => some (modalFrequencies p numModes, amps.map clip01)

/-- `ModalDecomposition._get_cache_key` (src/audio/modal_decomposition.py lines
14-25): the tuple `(tube_length, speed_of_sound, damping_coefficient,
reflection_count, q_factor, positions, num_modes)`.  Note that `hole_size`
and `tube_diameter` are not part of the tuple. -/
noncomputable def get_cache_key (p : TubeParams) (positions : List ℝ)
    (numModes : ℕ) : ℝ × ℝ × ℝ × ℕ × ℝ × List ℝ × ℕ :=
  (p.tube_length, p.speed_of_sound, p.damping_coefficient, p.reflection_count,
    p.q_factor, positions, numModes)

/-- Harmonic-candidate loop of `calculate_resonant_frequencies`
(src/audio/pressure_algorithm.py lines 459-464): for `n` in
`range(1, num_freqs * 2)` append `n * fundamental` while fewer than
`num_freqs` frequencies were collected and `20 ≤ n * fundamental ≤ 500`. -/
noncomputable def harmonicCandidates (fund : ℝ) (numFreqs : ℕ) : List ℝ :=
  (List.range' 1 (2 * numFreqs - 1)).foldl
    (fun acc n =>
      if acc.length < numFreqs ∧ 20 ≤ (n : ℝ) * fund ∧ (n : ℝ) * fund ≤ 500 then
        acc ++ [(n : ℝ) * fund]
      else acc)
    []

/-- Back-fill loop of `calculate_resonant_frequencies`
(src/audio/pressure_algorithm.py lines 467-473): while fewer than `num_freqs`
frequencies, insert `fundamental / (len + 2)` at the front, stopping as soon
as that value drops below 20 Hz.  Each pass grows the list by one, so
`numFreqs` rounds of fuel are enough. -/
noncomputable def fillLow (fund : ℝ) (numFreqs : ℕ) : ℕ → List ℝ → List ℝ
  | 0, acc => acc
  | fuel + 1, acc =>
    if acc.length < numFreqs then
      if 20 ≤ fund / ((acc.length : ℝ) + 2) then
        fillLow fund numFreqs fuel (fund / ((acc.length : ℝ) + 2) :: acc)
      else acc
    else acc

/-- Detuning loop of `calculate_resonant_frequencies`
(src/audio/pressure_algorithm.py lines 479-482): every element except index 0
is multiplied by `1 + (random() - 0.5) * 0.03`, an independent draw per
element; `draws i` models the draw consumed at index `i`.  The draws actually
produced by `np.random.random()` lie in `[0, 1)`; statements exhibiting
achievable runs constrain their draw sequences to that interval. -/
noncomputable def detune (draws : ℕ → ℝ) : ℕ → List ℝ → List ℝ
  | _, [] => []
  | i, v :: rest =>
    (if i = 0 then v else v * (1 + (draws i - 0.5) * 0.03)) :: detune draws (i + 1) rest

/-- `calculate_resonant_frequencies` (src/audio/pressure_algorithm.py lines
449-488): harmonic candidates of the closed-closed fundamental `c / (2L)`,
back-filled with sub-fundamentals, truncated to `num_freqs`, detuned from
index 1 on, and sorted ascending. -/
noncomputable def calculate_resonant_frequencies (p : TubeParams)
    (numFreqs : ℕ) (draws : ℕ → ℝ) : List ℝ :=
  let fund := p.speed_of_sound / (2 * p.tube_length)
  let collected := fillLow fund numFreqs numFreqs (harmonicCandidates fund numFreqs)
  List.insertionSort (fun a b => a ≤ b) (detune draws 0 (collected.take numFreqs))

/-- `find_optimal_frequencies` (src/audio/pressure_algorithm.py lines 490-519)
returns exactly the value of `calculate_resonant_frequencies`; the matrix and
target bookkeeping it also performs does not change the returned list. -/
noncomputable def find_optimal_frequencies (p : TubeParams) (numFreqs : ℕ)
    (draws : ℕ → ℝ) : List ℝ :=
  calculate_resonant_frequencies p numFreqs draws

/-- Sample rate `RATE = 44100` (src/audio/audio_core.py line 5). -/
noncomputable def RATE : ℝ := 44100

/-- Master volume `MASTER_VOLUME = 0.8` (src/audio/audio_core.py line 7). -/
noncomputable def MASTER_VOLUME : ℝ := 0.8

/-- `soft_clip(x, threshold)` = `tanh(x / threshold) * threshold`
(src/audio/audio_core.py lines 34-40). -/
noncomputable def soft_clip (x threshold : ℝ) : ℝ :=
  Real.tanh (x / threshold) * threshold

/-- Per-channel state of `ToneSynth` (src/audio/synth.py lines 9-27): target
frequencies, currently rendered frequencies, running phase accumulators,
volumes and mute flags, as maps from the channel index. -/
structure SynthState where
  numChannels : ℕ
  phases : ℕ → ℝ
  frequencies : ℕ → ℝ
  currentFrequencies : ℕ → ℝ
  volumes : ℕ → ℝ
  muted : ℕ → Bool

/-- `ToneSynth.set_frequency` (src/audio/synth.py lines 41-54): reject an
out-of-range channel, clamp the frequency to `[1, 20000]`, and update only the
target-frequency array when the clamped value differs, reporting whether a
change was scheduled. -/
noncomputable def set_frequency (s : SynthState) (channel : ℕ) (freq : ℝ) :
    SynthState × Bool :=
  if channel < s.numChannels then
    if s.frequencies channel ≠ max 1 (min 20000 freq) then
      ({ s with
          frequencies := Function.update s.frequencies channel (max 1 (min 20000 freq)) },
        true)
    else (s, false)
  else (s, false)

/-- `ToneSynth.set_volume` (src/audio/synth.py lines 56-63): update the volume
and mute flag of an in-range channel. -/
noncomputable def set_volume (s : SynthState) (channel : ℕ) (volume : ℝ)
    (muted : Bool) : SynthState :=
  if channel < s.numChannels then
    { s with volumes := Function.update s.volumes channel volume,
             muted := Function.update s.muted channel muted }
  else s

/-- Block frequency chosen by the callback's interpolation step
(src/audio/synth.py lines 90-112): move the current frequency toward the
target by 5 percent of the gap, with a 0.01 Hz floor step, or snap to the
target when already within 0.01 Hz. -/
noncomputable def effFreq (s : SynthState) (ch : ℕ) : ℝ :=
  let current := s.currentFrequencies ch
  let target := s.frequencies ch
  if 0.01 < |current - target| then
    let change := (target - current) * 0.05
    let change2 := if |change| < 0.01 then (if 0 < target - current then 0.01 else -0.01)
      else change
    current + change2
  else target

/-- Per-sample phase increment `2π * freq / rate` (src/audio/synth.py line 118). -/
noncomputable def phaseInc (s : SynthState) (ch : ℕ) : ℝ :=
  2 * Real.pi * effFreq s ch / RATE

/-- Mixed (pre-clip) sample `i` of a render block (src/audio/synth.py lines
86-123): each unmuted channel contributes
`volume * MASTER_VOLUME * sin(phase + i * phase_inc)`, and the channel
waveforms are summed into one buffer. -/
noncomputable def mixedSample (s : SynthState) (i : ℕ) : ℝ :=
  ∑ ch ∈ Finset.range s.numChannels,
    (if s.muted ch then 0
     else s.volumes ch * MASTER_VOLUME * Real.sin (s.phases ch + (i : ℝ) * phaseInc s ch))

/-- Output sample `i` written by `ToneSynth.callback`
(src/audio/synth.py lines 128-132): the mixed buffer passed through
`soft_clip` with its default threshold 0.8. -/
noncomputable def renderedSample (s : SynthState) (i : ℕ) : ℝ :=
  soft_clip (mixedSample s i) 0.8

/-- State written back by `ToneSynth.callback` for a block of `frames` frames
(src/audio/synth.py lines 86-137): every unmuted channel stores
`(phase + (frames - 1) * phase_inc) % 2π` and its interpolated current
frequency; muted channels are skipped by the `continue`. -/
noncomputable def callbackRun (s : SynthState) (frames : ℕ) : SynthState :=
  { s with
    phases := fun ch =>
      if ch < s.numChannels ∧ s.muted ch = false then
        pymod (s.phases ch + ((frames : ℝ) - 1) * phaseInc s ch) (2 * Real.pi)
      else s.phases ch,
    currentFrequencies := fun ch =>
      if ch < s.numChannels ∧ s.muted ch = false then effFreq s ch
      else s.currentFrequencies ch }

/-- `PressureTargetSystem.get_current_center_position`
(src/audio/pressure_targets.py lines 81-93), returning the pair of the center
and the direction flag the method stores: `cycle = (t % 2D) / D`; in the
second half of the cycle the center is `2 - cycle` moving down (-1), else
`cycle` moving up (+1). -/
noncomputable def get_current_center_position (D t : ℝ) : ℝ × ℤ :=
  if 1 < pymod t (2 * D) / D then (2 - pymod t (2 * D) / D, -1)
  else (pymod t (2 * D) / D, 1)

/-- Tube parameters with no damping, no reflections and no holes: speed of
sound 343, length 1, diameter 0.1, damping 0, hole 0, propane 0, reflections 0,
Q 5, density 1.9, hole impedance factor 0.6.  At 171.5 Hz the wave number is
π, so the signed response at position 1 is `cos π = -1`. -/
noncomputable def p1 : TubeParams := ⟨343, 1, 0.1, 0, 0, 0, 0, 5, 1.9, 0.6⟩

/-- Tube parameters of the end-to-end scenario: speed of sound 343, length 1,
diameter 0.1, damping 0.1, hole 0, propane 0, reflections 3, Q 5, density 1.9,
hole impedance factor 0.6. -/
noncomputable def p4 : TubeParams := ⟨343, 1, 0.1, 0.1, 0, 0, 3, 5, 1.9, 0.6⟩

/-- Hole-free variant for the cache-key check: speed 343, length 1, diameter
0.1, damping 0, hole 0, propane 0, reflections 0, Q 1, density 1.9, hole
impedance factor 0.6. -/
noncomputable def p5a : TubeParams := ⟨343, 1, 0.1, 0, 0, 0, 0, 1, 1.9, 0.6⟩

/-- Identical to `p5a` except `hole_size = 1`. -/
noncomputable def p5b : TubeParams := ⟨343, 1, 0.1, 0, 1, 0, 0, 1, 1.9, 0.6⟩

/-- One-channel synth state: phase 0, target and current frequency 110,
volume 0.1, unmuted. -/
noncomputable def s0 : SynthState :=
  ⟨1, fun _ => 0, fun _ => 110, fun _ => 110, fun _ => 0.1, fun _ => false⟩

/-- Helper: the Python modulo with a positive modulus lands in `[0, b)`. -/
theorem pymod_mem (a b : ℝ) (hb : 0 < b) : 0 ≤ pymod a b ∧ pymod a b < b := by
  have h : pymod a b = b * Int.fract (a / b) := by
    unfold pymod Int.fract
    rw [mul_sub, mul_comm b (a / b), div_mul_cancel₀ a hb.ne']
  refine ⟨?_, ?_⟩
  · rw [h]
    exact mul_nonneg hb.le (Int.fract_nonneg _)
  · rw [h]
    calc b * Int.fract (a / b) < b * 1 := by
          exact mul_lt_mul_of_pos_left (Int.fract_lt_one _) hb
      _ = b := mul_one b

/-- Helper: the Python modulo fixes arguments already in range. -/
theorem pymod_eq_self (a b : ℝ) (h0 : 0 ≤ a) (hab : a < b) : pymod a b = a := by
  have hb : 0 < b := lt_of_le_of_lt h0 hab
  have hfl : ⌊a / b⌋ = 0 := by
    rw [Int.floor_eq_zero_iff]
    constructor
    · exact div_nonneg h0 hb.le
    · rw [div_lt_one hb]
      exact hab
  unfold pymod
  rw [hfl]
  simp

/-- Helper: the hyperbolic tangent stays strictly inside `(-1, 1)`. -/
theorem abs_tanh_lt_one (x : ℝ) : |Real.tanh x| < 1 := by
  rw [Real.tanh_eq_sinh_div_cosh, abs_div, abs_of_pos (Real.cosh_pos x),
    div_lt_one (Real.cosh_pos x)]
  rcases abs_cases (Real.sinh x) with ⟨h, _⟩ | ⟨h, _⟩
  · rw [h]
    exact Real.sinh_lt_cosh x
  · rw [h]
    have hneg := Real.sinh_lt_cosh (-x)
    rw [Real.sinh_neg, Real.cosh_neg] at hneg
    exact hneg

/-- Helper: the truncated bracketing index of a grid frequency is its own
grid index. -/
theorem lowIdx_gridFreq (i : ℕ) : lowIdx (gridFreq i) = i := by
  unfold lowIdx gridFreq
  rw [show (20 + 2 * (i : ℝ) - 20) / 2 = (i : ℝ) by ring]
  simp

/-- Helper: for off-grid in-range frequencies the bracketing grid rows
surround the frequency and the upper index stays inside the table. -/
theorem lowIdx_bracket (f : ℝ) (h1 : 20 < f) (h2 : f < 500) :
    gridFreq (lowIdx f) ≤ f ∧ f < gridFreq (lowIdx f + 1) ∧ lowIdx f + 1 ≤ 240 := by
  have hnn : (0 : ℝ) ≤ (f - 20) / 2 := by linarith
  have hfl0 : (0 : ℤ) ≤ ⌊(f - 20) / 2⌋ := Int.floor_nonneg.mpr hnn
  have hcast : ((lowIdx f : ℕ) : ℝ) = ((⌊(f - 20) / 2⌋ : ℤ) : ℝ) := by
    unfold lowIdx
    rw [← Int.cast_natCast (R := ℝ), Int.toNat_of_nonneg hfl0]
  have hle : ((lowIdx f : ℕ) : ℝ) ≤ (f - 20) / 2 := by
    rw [hcast]
    exact Int.floor_le _
  have hlt : (f - 20) / 2 < (lowIdx f : ℝ) + 1 := by
    rw [hcast]
    exact Int.lt_floor_add_one _
  have hup : ((lowIdx f : ℕ) : ℝ) < 240 := by
    have : (f - 20) / 2 < 240 := by linarith
    linarith
  refine ⟨?_, ?_, ?_⟩
  · unfold gridFreq
    linarith
  · unfold gridFreq
    push_cast
    linarith
  · have : (lowIdx f : ℕ) < 240 := by exact_mod_cast hup
    omega

/-- Helper: detuning never touches a list of at most one element. -/
theorem detune_short (d : ℕ → ℝ) (l : List ℝ) (h : l.length ≤ 1) :
    detune d 0 l = l := by
  match l with
  | [] => simp [detune]
  | [a] => simp [detune]
  | a :: b :: t =>
    simp only [List.length_cons] at h
    omega

/-- Claim C6: every output sample written by the synth render callback has
magnitude strictly below the soft-clip threshold 0.8, because the summed
waveform passes through `soft_clip(x) = tanh(x / 0.8) * 0.8` before being
written out. -/
theorem C6_soft_clip_bound (s : SynthState) (i : ℕ) : |renderedSample s i| < 0.8 := by
  unfold renderedSample soft_clip
  rw [abs_mul, abs_of_pos (show (0 : ℝ) < 0.8 by norm_num)]
  have h := abs_tanh_lt_one (mixedSample s i / 0.8)
  nlinarith [abs_nonneg (Real.tanh (mixedSample s i / 0.8))]

/-- Claim C7: the phase accumulator is an invariant of every operation: after
a render callback every updated (in-range, unmuted) channel's stored phase
lies in `[0, 2π)`, and neither `set_frequency` nor `set_volume` ever modifies
the phases, so no parameter change resets the phase. -/
theorem C7_phase_invariant :
    (∀ (s : SynthState) (frames ch : ℕ), 1 ≤ frames → ch < s.numChannels →
      s.muted ch = false →
      0 ≤ (callbackRun s frames).phases ch ∧
        (callbackRun s frames).phases ch < 2 * Real.pi) ∧
    (∀ (s : SynthState) (ch : ℕ) (f : ℝ),
      ((set_frequency s ch f).1).phases = s.phases) ∧
    (∀ (s : SynthState) (ch : ℕ) (v : ℝ) (m : Bool),
      (set_volume s ch v m).phases = s.phases) := by
  refine ⟨?_, ?_, ?_⟩
  · intro s frames ch _ hch hm
    have h2pi : (0 : ℝ) < 2 * Real.pi := by positivity
    unfold callbackRun
    simp only
    rw [if_pos ⟨hch, hm⟩]
    exact pymod_mem _ _ h2pi
  · intro s ch f
    unfold set_frequency
    split
    · split
      · rfl
      · rfl
    · rfl
  · intro s ch v m
    unfold set_volume
    split
    · rfl
    · rfl

/-- Witness for C7 on the concrete one-channel state `s0`. -/
theorem C7_phase_invariant_witness :
    (0 ≤ (callbackRun s0 1).phases 0 ∧ (callbackRun s0 1).phases 0 < 2 * Real.pi) ∧
    ((set_frequency s0 0 440).1).phases = s0.phases ∧
    (set_volume s0 0 1 true).phases = s0.phases := by
  refine ⟨C7_phase_invariant.1 s0 1 0 ?_ ?_ ?_, C7_phase_invariant.2.1 s0 0 440,
    C7_phase_invariant.2.2 s0 0 1 true⟩
  · norm_num
  · show 0 < s0.numChannels
    norm_num [s0]
  · rfl

/-- Claim C8: the animated center position is 0 at `t = 0`, 1 at the
half-cycle `t = D`, 0 again at `t = 2D`; the direction flag is up (+1)
throughout the first half-cycle and down (-1) throughout the second. -/
theorem C8_center_position (D : ℝ) (hD : 0 < D) :
    (get_current_center_position D 0).1 = 0 ∧
    (get_current_center_position D D).1 = 1 ∧
    (get_current_center_position D (2 * D)).1 = 0 ∧
    (∀ t, 0 ≤ t → t ≤ D → (get_current_center_position D t).2 = 1) ∧
    (∀ t, D < t → t < 2 * D → (get_current_center_position D t).2 = -1) := by
  have h2D : (0 : ℝ) < 2 * D := by linarith
  refine ⟨?_, ?_, ?_, ?_, ?_⟩
  · unfold get_current_center_position
    rw [pymod_eq_self 0 (2 * D) le_rfl h2D]
    norm_num
  · unfold get_current_center_position
    rw [pymod_eq_self D (2 * D) hD.le (by linarith), div_self hD.ne']
    norm_num
  · unfold get_current_center_position
    have hmod : pymod (2 * D) (2 * D) = 0 := by
      unfold pymod
      rw [div_self h2D.ne']
      norm_num
    rw [hmod]
    norm_num
  · intro t h0 h1
    unfold get_current_center_position
    rw [pymod_eq_self t (2 * D) h0 (by linarith)]
    rw [if_neg (by rw [not_lt, div_le_one hD]; exact h1)]
  · intro t h0 h1
    unfold get_current_center_position
    rw [pymod_eq_self t (2 * D) (by linarith) h1]
    rw [if_pos (by rw [one_lt_div hD]; exact h0)]

/-- Witness for C8 with the source's half-cycle duration `D = 30`. -/
theorem C8_center_position_witness :
    (get_current_center_position 30 30).1 = 1 ∧
    (get_current_center_position 30 45).2 = -1 := by
  have h := C8_center_position 30 (by norm_num)
  exact ⟨h.2.1, h.2.2.2.2 45 (by norm_num) (by norm_num)⟩

/-- Claim C9: `decompose_target` never raises: a missing target, an empty
target, and a solver chain in which both the Cholesky attempt and the general
solve fail all return the failure sentinel (modelled as `none`, the source's
`(None, None)`). -/
theorem C9_decompose_failure_sentinel :
    (∀ (p : TubeParams) (sr : Option (List ℝ)) (nm : ℕ),
      decompose_target p sr none nm = none) ∧
    (∀ (p : TubeParams) (sr : Option (List ℝ)) (nm : ℕ),
      decompose_target p sr (some []) nm = none) ∧
    (∀ (p : TubeParams) (t : List ℝ) (nm : ℕ),
      decompose_target p none (some t) nm = none) := by
  refine ⟨?_, ?_, ?_⟩
  · intro p sr nm
    rfl
  · intro p sr nm
    rfl
  · intro p t nm
    unfold decompose_target
    split
    · rfl
    · split
      · rfl
      · rfl

/-- Claim C2: matrix lookup returns the stored row value on an exact grid hit,
clamps to the first row at or below 20 Hz, clamps to the last row at or above
500 Hz, and linearly interpolates the two bracketing stored values for any
off-grid in-range frequency. -/
theorem C2_matrix_lookup (row : ℕ → ℝ) (f : ℝ) :
    (∀ i : ℕ, i ≤ 240 → f = gridFreq i → get_pressure_from_matrix row f = row i) ∧
    (f ≤ 20 → get_pressure_from_matrix row f = row 0) ∧
    (500 ≤ f → get_pressure_from_matrix row f = row 240) ∧
    (20 < f → f < 500 → ¬OnGrid f →
      gridFreq (lowIdx f) < f ∧ f < gridFreq (lowIdx f + 1) ∧
      get_pressure_from_matrix row f =
        row (lowIdx f) +
          ((f - gridFreq (lowIdx f)) / 2) * (row (lowIdx f + 1) - row (lowIdx f))) := by
  refine ⟨?_, ?_, ?_, ?_⟩
  · intro i hi hf
    unfold get_pressure_from_matrix
    rw [if_pos ⟨i, hi, hf⟩, hf, lowIdx_gridFreq]
  · intro h20
    unfold get_pressure_from_matrix
    by_cases hOn : OnGrid f
    · rw [if_pos hOn]
      obtain ⟨i, _, hf⟩ := hOn
      have hcast : (i : ℝ) ≤ 0 := by
        rw [hf] at h20
        unfold gridFreq at h20
        linarith
      have hi0 : i = 0 := by
        have h0 : (i : ℝ) = 0 := le_antisymm hcast (Nat.cast_nonneg i)
        exact_mod_cast h0
      rw [hf, lowIdx_gridFreq, hi0]
    · rw [if_neg hOn, if_pos h20]
  · intro h500
    unfold get_pressure_from_matrix
    by_cases hOn : OnGrid f
    · rw [if_pos hOn]
      obtain ⟨i, hi, hf⟩ := hOn
      have hcast : (240 : ℝ) ≤ (i : ℝ) := by
        rw [hf] at h500
        unfold gridFreq at h500
        linarith
      have hi240 : i = 240 := by
        have h240 : 240 ≤ i := by exact_mod_cast hcast
        omega
      rw [hf, lowIdx_gridFreq, hi240]
    · rw [if_neg hOn, if_neg (not_le.mpr (by linarith : (20 : ℝ) < f)), if_pos h500]
  · intro hf1 hf2 hOn
    obtain ⟨hle, hlt, hup⟩ := lowIdx_bracket f hf1 hf2
    have hstrict : gridFreq (lowIdx f) < f := by
      rcases lt_or_eq_of_le hle with h | h
      · exact h
      · exact absurd ⟨lowIdx f, by omega, h.symm⟩ hOn
    refine ⟨hstrict, hlt, ?_⟩
    unfold get_pressure_from_matrix
    rw [if_neg hOn, if_neg (not_le.mpr hf1), if_neg (not_le.mpr hf2),
      min_eq_left hup]
    rw [if_pos (by unfold gridFreq; push_cast; linarith)]
    rw [show gridFreq (lowIdx f + 1) - gridFreq (lowIdx f) = 2 by
      unfold gridFreq; push_cast; ring]

/-- Witness for C2: an exact hit at 22 Hz (grid row 1) and an interpolated
lookup halfway between rows 0 and 1 at 21 Hz, on the matrix whose row `i`
stores the value `i`. -/
theorem C2_matrix_lookup_witness :
    get_pressure_from_matrix (fun n => (n : ℝ)) 22 = 1 ∧
    get_pressure_from_matrix (fun n => (n : ℝ)) 21 = 1 / 2 := by
  constructor
  · have h := (C2_matrix_lookup (fun n => (n : ℝ)) 22).1 1 (by norm_num)
      (by unfold gridFreq; norm_num)
    simpa using h
  · have hOn : ¬OnGrid 21 := by
      rintro ⟨i, _, hf⟩
      unfold gridFreq at hf
      have h2i : (2 * i : ℝ) = 1 := by linarith
      have h2i' : (2 * i : ℕ) = 1 := by exact_mod_cast h2i
      omega
    have h := ((C2_matrix_lookup (fun n => (n : ℝ)) 21).2.2.2 (by norm_num)
      (by norm_num) hOn).2.2
    have hfl : (⌊((21 : ℝ) - 20) / 2⌋ : ℤ) = 0 := by
      rw [Int.floor_eq_zero_iff]
      constructor <;> norm_num
    have hl : lowIdx 21 = 0 := by
      unfold lowIdx
      rw [hfl]
      rfl
    rw [h, hl]
    unfold gridFreq
    norm_num

/-- Claim C3: whenever `decompose_target` succeeds, the returned frequencies
are exactly the quarter-wave odd harmonics `(2n + 1) * c / (4L)` for
`n = 0 .. num_modes - 1`, and every returned amplitude lies in `[0, 1]`. -/
theorem C3_decompose_modal_basis :
    ∀ (p : TubeParams) (sr target : Option (List ℝ)) (nm : ℕ) (fs amps : List ℝ),
      decompose_target p sr target nm = some (fs, amps) →
      fs = (List.range nm).map
          (fun n : ℕ => (2 * (n : ℝ) + 1) * p.speed_of_sound / (4 * p.tube_length)) ∧
      ∀ a ∈ amps, 0 ≤ a ∧ a ≤ 1 := by
  intro p sr target nm fs amps h
  cases target with
  | none => exact Option.noConfusion h
  | some t =>
    simp only [decompose_target] at h
    by_cases ht : t.length = 0
    · rw [if_pos ht] at h
      exact Option.noConfusion h
    · rw [if_neg ht] at h
      cases sr with
      | none => exact Option.noConfusion h
      | some amps0 =>
        injection h with hpair
        obtain ⟨hfs, hamps⟩ := Prod.mk.injEq .. ▸ hpair
        constructor
        · rw [← hfs]
          rfl
        · intro a ha
          rw [← hamps] at ha
          simp only [List.mem_map] at ha
          obtain ⟨b, _, hb⟩ := ha
          rw [← hb]
          unfold clip01
          exact ⟨le_min (by norm_num) (le_max_left 0 b), min_le_left _ _⟩

/-- Witness for C3 on `p1` with two modes, target `[1, 0]` and raw solver
amplitudes `[2, -1]`: the frequencies are `[85.75, 257.25]` and the clipped
amplitudes `[1, 0]` lie in `[0, 1]`. -/
theorem C3_decompose_modal_basis_witness :
    ([(85.75 : ℝ), 257.25] =
      (List.range 2).map
        (fun n : ℕ => (2 * (n : ℝ) + 1) * p1.speed_of_sound / (4 * p1.tube_length))) ∧
    ∀ a ∈ [(1 : ℝ), 0], 0 ≤ a ∧ a ≤ 1 := by
  apply C3_decompose_modal_basis p1 (some [2, -1]) (some [1, 0]) 2
  unfold decompose_target modalFrequencies clip01
  norm_num [List.range_succ, p1, max_def, min_def]

/-- Claim C1 (amended): the pressure matrix stores the rectified magnitude
response, not the signed one: every stored entry is the absolute value of the
signed per-position accumulation, hence nonnegative, and consequently every
interpolated per-frequency value that `combine_frequency_pressures` sums
(scaled by amplitude) is nonnegative as well. -/
theorem C1_matrix_stores_rectified :
    (∀ (p : TubeParams) (positions : List ℝ) (i j : ℕ), j < positions.length →
      generatePressureMatrix p positions i j =
        |tNetworkAccum p (gridFreq i) (positions.getD j 0)| ∧
      0 ≤ generatePressureMatrix p positions i j) ∧
    (∀ (row : ℕ → ℝ) (f : ℝ), (∀ m, 0 ≤ row m) →
      0 ≤ get_pressure_from_matrix row f) := by
  constructor
  · intro p positions i j hj
    have hg : generatePressureMatrix p positions i j =
        |tNetworkAccum p (gridFreq i) (positions.getD j 0)| := by
      unfold generatePressureMatrix calculate_t_network_pressures
      rw [List.getD_eq_getElem _ _ (by simpa using hj), List.getElem_map,
        List.getD_eq_getElem _ _ hj]
    exact ⟨hg, hg ▸ abs_nonneg _⟩
  · intro row f hrow
    unfold get_pressure_from_matrix
    by_cases hOn : OnGrid f
    · rw [if_pos hOn]
      exact hrow _
    · rw [if_neg hOn]
      by_cases h20 : f ≤ 20
      · rw [if_pos h20]
        exact hrow 0
      · rw [if_neg h20]
        by_cases h500 : 500 ≤ f
        · rw [if_pos h500]
          exact hrow 240
        · rw [if_neg h500]
          obtain ⟨hle, hlt, hup⟩ := lowIdx_bracket f (not_le.mp h20) (not_le.mp h500)
          rw [min_eq_left hup]
          rw [if_pos (by unfold gridFreq; push_cast; linarith)]
          rw [show gridFreq (lowIdx f + 1) - gridFreq (lowIdx f) = 2 by
            unfold gridFreq; push_cast; ring]
          have ht0 : 0 ≤ (f - gridFreq (lowIdx f)) / 2 := by
            apply div_nonneg _ (by norm_num)
            linarith
          have ht1 : (f - gridFreq (lowIdx f)) / 2 ≤ 1 := by
            rw [div_le_one (by norm_num)]
            have h2 : gridFreq (lowIdx f + 1) = gridFreq (lowIdx f) + 2 := by
              unfold gridFreq
              push_cast
              ring
            rw [h2] at hlt
            linarith
          have h1 := hrow (lowIdx f)
          have h2 := hrow (lowIdx f + 1)
          nlinarith [mul_nonneg (sub_nonneg.mpr ht1) h1, mul_nonneg ht0 h2]

/-- Witness for C1 (amended) at `p1` with a single position: the stored entry
at grid row 0 is the magnitude of the signed response and an interpolated
lookup over a nonnegative matrix is nonnegative. -/
theorem C1_matrix_stores_rectified_witness :
    generatePressureMatrix p1 [1] 0 0 = |tNetworkAccum p1 (gridFreq 0) 1| ∧
    0 ≤ generatePressureMatrix p1 [1] 0 0 ∧
    0 ≤ get_pressure_from_matrix (fun _ => 0) 21 := by
  have h1 := C1_matrix_stores_rectified.1 p1 [1] 0 0 (by norm_num)
  have h2 := C1_matrix_stores_rectified.2 (fun _ => 0) 21 (fun _ => le_refl 0)
  exact ⟨by simpa using h1.1, h1.2, h2⟩

/-- Counterexample to C1 as stated: with no damping, reflections or holes
(`p1`) the signed response at 171.5 Hz and position 1 is `cos π = -1`, yet
`calculate_t_network_pressures` — which fills the matrix rows and the direct
path of `combine_frequency_pressures` — returns the rectified `[1]`, and the
amplitude-scaled vector summed by the direct combine path is the rectified
`[1]` as well, not the signed `[-1]`. -/
theorem C1_counterexample :
    tNetworkAccum p1 171.5 1 = -1 ∧
    calculate_t_network_pressures p1 171.5 [1] = [1] ∧
    combineDirect p1 [1] [171.5] [1] = [1] := by
  have hk : waveNumber p1 171.5 = Real.pi := by
    show (2 : ℝ) * Real.pi * 171.5 / 343 = Real.pi
    ring_nf
  have hacc : tNetworkAccum p1 171.5 1 = -1 := by
    unfold tNetworkAccum tNetworkBase standingWaveFactor holeFactor effectiveDamping
    rw [hk]
    norm_num [p1, List.range'_zero, Real.exp_zero, Real.cos_pi]
  have hcalc : calculate_t_network_pressures p1 171.5 [1] = [1] := by
    unfold calculate_t_network_pressures
    simp [hacc]
  have hcomb : combineDirect p1 [1] [171.5] [1] = [1] := by
    unfold combineDirect vecAdd
    simp [hcalc]
  exact ⟨hacc, hcalc, hcomb⟩

/-- Claim C5 (code evaluated at the failing input): `p5a` and `p5b` differ
only in `hole_size` (0 versus 1), which changes the T-network response at
42.875 Hz and position 1, yet `_get_cache_key` produces the same tuple for
both, so the cached response matrix would be reused across a hole-size
change. -/
theorem C5_cache_key_misses_hole_size :
    get_cache_key p5a [1] 1 = get_cache_key p5b [1] 1 ∧
    p5a.hole_size ≠ p5b.hole_size ∧
    calculate_t_network_pressures p5a 42.875 [1] ≠
      calculate_t_network_pressures p5b 42.875 [1] := by
  have hka : waveNumber p5a 42.875 = Real.pi / 4 := by
    show (2 : ℝ) * Real.pi * 42.875 / 343 = Real.pi / 4
    ring_nf
  have hkb : waveNumber p5b 42.875 = Real.pi / 4 := by
    show (2 : ℝ) * Real.pi * 42.875 / 343 = Real.pi / 4
    ring_nf
  have hsqrt2 : (0 : ℝ) < Real.sqrt 2 := Real.sqrt_pos.mpr (by norm_num)
  have ha : tNetworkAccum p5a 42.875 1 = Real.sqrt 2 / 2 := by
    unfold tNetworkAccum tNetworkBase standingWaveFactor holeFactor effectiveDamping
    rw [hka]
    norm_num [p5a, List.range'_zero, Real.exp_zero, Real.cos_pi_div_four]
  have hbase : tNetworkBase p5b 42.875 1 = Real.sqrt 2 / 2 := by
    unfold tNetworkBase effectiveDamping
    rw [hkb]
    norm_num [p5b, List.range'_zero, Real.exp_zero, Real.cos_pi_div_four]
  have hsw : standingWaveFactor p5b 42.875 = 1 := by
    unfold standingWaveFactor
    norm_num [p5b]
  have hhole : 1 < holeFactor p5b 42.875 1 := by
    unfold holeFactor
    rw [if_pos (by norm_num [p5b])]
    rw [hkb]
    have hpos : 0 < ((p5b.density * p5b.speed_of_sound /
        (p5b.density * p5b.speed_of_sound * (Real.pi / 4) *
          (p5b.hole_size / 2) * (1 + p5b.hole_impedance_factor))) * 0.3) *
        Real.sin (Real.pi / 4 * 1) := by
      rw [mul_one, Real.sin_pi_div_four]
      have hpi := Real.pi_pos
      have hc : (0 : ℝ) < p5b.density * p5b.speed_of_sound := by norm_num [p5b]
      have hh : (0 : ℝ) < p5b.hole_size := by norm_num [p5b]
      have hi : (0 : ℝ) < 1 + p5b.hole_impedance_factor := by norm_num [p5b]
      positivity
    linarith
  have hb : Real.sqrt 2 / 2 < tNetworkAccum p5b 42.875 1 := by
    unfold tNetworkAccum
    rw [hbase, hsw, mul_one]
    nlinarith [hhole, hsqrt2]
  refine ⟨rfl, by norm_num [p5a, p5b], ?_⟩
  intro hEq
  unfold calculate_t_network_pressures at hEq
  simp only [List.map_cons, List.map_nil, List.cons.injEq, and_true] at hEq
  rw [ha, abs_of_pos (by positivity)] at hEq
  rw [abs_of_pos (lt_trans (by positivity) hb)] at hEq
  linarith [hb, hEq.ge]

/-- Helper: the closed-closed fundamental of the end-to-end scenario tube. -/
theorem p4_fund : p4.speed_of_sound / (2 * p4.tube_length) = 171.5 := by
  norm_num [p4]

/-- Helper: with fundamental 171.5 and four requested frequencies, only the
first two harmonics pass the `20 ≤ f ≤ 500` filter. -/
theorem harm_p4_4 : harmonicCandidates 171.5 4 = [171.5, 343] := by
  unfold harmonicCandidates
  rw [show List.range' 1 (2 * 4 - 1) = [1, 2, 3, 4, 5, 6, 7] from rfl]
  norm_num [List.foldl]

/-- Helper: the back-fill loop inserts `171.5 / 4` and `171.5 / 5` in front. -/
theorem fill_p4_4 : fillLow 171.5 4 4 [171.5, 343] = [34.3, 42.875, 171.5, 343] := by
  norm_num [fillLow]

/-- Helper: the scenario frequencies with neutral draws (no detuning). -/
theorem calcRes_p4_neutral :
    calculate_resonant_frequencies p4 4 (fun _ => 0.5) = [34.3, 42.875, 171.5, 343] := by
  simp only [calculate_resonant_frequencies]
  rw [p4_fund, harm_p4_4, fill_p4_4]
  rw [show ([(34.3 : ℝ), 42.875, 171.5, 343]).take 4 = [34.3, 42.875, 171.5, 343] from rfl]
  have hd : detune (fun _ => (0.5 : ℝ)) 0 [34.3, 42.875, 171.5, 343] =
      [34.3, 42.875, 171.5, 343] := by
    norm_num [detune]
  rw [hd]
  norm_num [List.insertionSort, List.orderedInsert]

/-- Counterexample to C4 as stated: with tube length 1, speed of sound 343,
reflections 3 and Q 5, a run of `calculate_resonant_frequencies` with four
frequencies and neutral detuning draws returns `[34.3, 42.875, 171.5, 343]`,
and no returned frequency is within the 1.5 percent detuning tolerance of
514.5 Hz or 686 Hz. -/
theorem C4_counterexample :
    calculate_resonant_frequencies p4 4 (fun _ => 0.5) = [34.3, 42.875, 171.5, 343] ∧
    ∀ y ∈ calculate_resonant_frequencies p4 4 (fun _ => 0.5),
      0.015 * 514.5 < |y - 514.5| ∧ 0.015 * 686 < |y - 686| := by
  refine ⟨calcRes_p4_neutral, ?_⟩
  rw [calcRes_p4_neutral]
  intro y hy
  simp only [List.mem_cons, List.not_mem_nil, or_false] at hy
  rcases hy with rfl | rfl | rfl | rfl <;>
    exact ⟨lt_abs.mpr (Or.inr (by norm_num)), lt_abs.mpr (Or.inr (by norm_num))⟩

/-- Claim C4 (amended): with tube length 1, speed of sound 343, reflections 3
and Q 5, computing resonant frequencies for `num_freqs = 4` (neutral detuning
draws) yields `[34.3, 42.875, 171.5, 343]`: the 500 Hz ceiling excludes the
harmonics 514.5 and 686, and the code back-fills with the sub-fundamental
frequencies `171.5 / 4` and `171.5 / 5`. -/
theorem C4_amended_harmonic_cap :
    calculate_resonant_frequencies p4 4 (fun _ => 0.5) =
      [171.5 / 5, 171.5 / 4, 171.5, 2 * 171.5] := by
  rw [calcRes_p4_neutral]
  norm_num

/-- Claim C10: the frequency selection is deterministic only for a single
requested frequency; from two frequencies on, the random detuning draws enter
the result, so two calls of `find_optimal_frequencies` with identical tube
parameters can return different arrays.  The two exhibited runs use only
draws inside `[0, 1)`, the range of `np.random.random()`, so both are
achievable by the program. -/
theorem C10_detuning_nondeterminism :
    (∀ (p : TubeParams) (d d' : ℕ → ℝ),
      calculate_resonant_frequencies p 1 d = calculate_resonant_frequencies p 1 d') ∧
    (∃ d d' : ℕ → ℝ,
      (∀ i, 0 ≤ d i ∧ d i < 1) ∧ (∀ i, 0 ≤ d' i ∧ d' i < 1) ∧
      find_optimal_frequencies p4 2 d ≠ find_optimal_frequencies p4 2 d') := by
  constructor
  · intro p d d'
    simp only [calculate_resonant_frequencies]
    have hlen : ∀ l : List ℝ, (l.take 1).length ≤ 1 := by
      intro l
      rw [List.length_take]
      exact min_le_left _ _
    rw [detune_short d _ (hlen _), detune_short d' _ (hlen _)]
  · refine ⟨fun _ => 0.5, fun i => if i = 1 then 0.75 else 0.5, ?_, ?_, ?_⟩
    · intro i
      norm_num
    · intro i
      dsimp only
      split <;> norm_num
    have harm2 : harmonicCandidates 171.5 2 = [171.5, 343] := by
      unfold harmonicCandidates
      rw [show List.range' 1 (2 * 2 - 1) = [1, 2, 3] from rfl]
      norm_num [List.foldl]
    have fill2 : fillLow 171.5 2 2 [171.5, 343] = [171.5, 343] := by
      norm_num [fillLow]
    have e1 : calculate_resonant_frequencies p4 2 (fun _ => 0.5) = [171.5, 343] := by
      simp only [calculate_resonant_frequencies]
      rw [p4_fund, harm2, fill2]
      rw [show ([(171.5 : ℝ), 343]).take 2 = [171.5, 343] from rfl]
      have hd : detune (fun _ => (0.5 : ℝ)) 0 [171.5, 343] = [171.5, 343] := by
        norm_num [detune]
      rw [hd]
      norm_num [List.insertionSort, List.orderedInsert]
    have e2 : calculate_resonant_frequencies p4 2 (fun i => if i = 1 then 0.75 else 0.5) =
        [171.5, 345.5725] := by
      simp only [calculate_resonant_frequencies]
      rw [p4_fund, harm2, fill2]
      rw [show ([(171.5 : ℝ), 343]).take 2 = [171.5, 343] from rfl]
      have hd : detune (fun i => if i = 1 then (0.75 : ℝ) else 0.5) 0 [171.5, 343] =
          [171.5, 345.5725] := by
        norm_num [detune]
      rw [hd]
      norm_num [List.insertionSort, List.orderedInsert]
    unfold find_optimal_frequencies
    rw [e1, e2]
    intro h
    have h343 : (343 : ℝ) = 345.5725 := by
      simpa using congrArg (fun l => l.getD 1 0) h
    norm_num at h343

end Heatwave
